import Mathlib

/-!
Verification of the `effects` library (an algebraic-effects runtime for
Python) against its natural-language specification.

The development shallowly embeds the core of the library:

* `src/effects/effects.py` — the dispatcher (`send`, `safe_send`,
  `barrier`), handler registration (`handler`), the context-local stack
  (`get_stack`) and the handler context manager
  (`_EffectHandler.__enter__` / `__exit__`);
* `src/effects/_typing.py` — annotation normalization and the
  generic-specialization matcher (`annotation_matches_effect` and its
  helpers);
* `src/effects/util.py` — the `stack` scope combinator.

Machine-level Python detail is modelled as follows: object identity is a
natural-number reference (`ref` / `hid` / `cid` fields); a runtime class
is a natural-number class id, and an effect instance carries the list of
class ids of its class's method-resolution order, so that
`isinstance(e, C)` becomes membership of `C` in that list; the
context-variable holding the resolution pointer is threaded as an
explicit `Option Int`.  Handler callables are drawn from a small body
language (`HBody`) sufficient for the behaviours the specification
quantifies over: returning a constant, raising `NoHandlerError` on the
received effect (the barrier body), raising an arbitrary error, and
re-sending an effect.  Recursion through nested `send`s is bounded by
explicit fuel; fuel exhaustion is the distinguished outcome `diverge`
(Python's `RecursionError`).  To keep every definition reducible by the
kernel, the interpreter is staged: the walk (`sendLoopWith`) and the
callable invocation (`invokeBodyWith`) take the function used for nested
sends as an explicit argument, and `send fuel` instantiates it with
`send (fuel - 1)` by structural recursion on the fuel.  The interpreter
additionally returns a ghost trace of the stack indices whose callables
were invoked, used only to state "which handlers ran" properties; it
does not influence results.
-/

namespace Effects

/-- An effect instance: `ref` models Python object identity (`is`),
`classes` is the MRO of the instance's runtime class (the class itself
and all its ancestors), so `isinstance(e, C)` is `C ∈ e.classes`. -/
structure EffectInst where
  ref : Nat
  classes : List Nat
deriving DecidableEq, Repr

/-- Handler-callable bodies: the shapes of handler functions the
specification's claims quantify over.  `raiseRecv` raises
`NoHandlerError(effect)` on the effect the callable received (this is
exactly the body `barrier` installs); `throwErr` raises an arbitrary
non-`NoHandlerError` exception; `sendE`/`sendRecv` re-send an effect
(`sendRecv` forwards the received one) and return the nested result. -/
inductive HBody where
  | const (v : Nat)
  | raiseRecv
  | throwErr (c : Nat)
  | sendE (e : EffectInst) (interpretFinal : Bool)
  | sendRecv (interpretFinal : Bool)
deriving DecidableEq, Repr

/-- An `_EffectHandler` entry: `hid` models the handler object's identity
(used by `__exit__`'s `is` comparison), `accepted` the `_effect_type`
argument of `isinstance` (a tuple of classes; a single class is the
one-element list), `body` the handler callable, `onExit` whether an
`on_exit` callback was supplied. -/
structure Handler where
  hid : Nat
  accepted : List Nat
  body : HBody
  onExit : Bool
deriving DecidableEq, Repr

/-- `isinstance(effect, handler_obj._effect_type)` (effects.py line 243):
the effect's runtime class is, or subclasses, one of the accepted
classes. -/
def hMatches (h : Handler) (e : EffectInst) : Bool :=
  h.accepted.any (fun c => e.classes.contains c)

/-- The outcome of a call to `send`: a returned value, a raised
`NoHandlerError` carrying the unmatched effect instance, an arbitrary
exception raised by a handler body, or fuel exhaustion
(`RecursionError`). -/
inductive Outcome where
  | ok (v : Nat)
  | noHandler (e : EffectInst)
  | err (c : Nat)
  | diverge
deriving DecidableEq, Repr

/-- Result of a dispatch step: the outcome, the value of `_PTR_VAR` after
the step, and the ghost trace of stack indices whose handler callables
were invoked (in invocation order). -/
structure DRes where
  out : Outcome
  ptr : Option Int
  trace : List Nat
deriving DecidableEq, Repr

/-- The type of the function a handler body uses for a nested `send`:
stack, effect, `interpret_final`, current `_PTR_VAR` content. -/
abbrev Nested := List Handler → EffectInst → Bool → Option Int → DRes

/-- The nested-send function when the recursion budget is exhausted:
every nested send diverges (Python's `RecursionError`). -/
def divergeNested : Nested := fun _ _ _ var => ⟨.diverge, var, []⟩

/-- Invoke a matched handler's callable
(`handler_obj._handler_func(effect)`, effects.py line 244) with
`_PTR_VAR` holding `var`, using `nested` for any `send` the body
issues. -/
def invokeBodyWith (nested : Nested) (stk : List Handler) (h : Handler)
    (recv : EffectInst) (var : Option Int) : DRes :=
  match h.body with
  | .const v => ⟨.ok v, var, []⟩
  | .raiseRecv => ⟨.noHandler recv, var, []⟩
  | .throwErr c => ⟨.err c, var, []⟩
  | .sendE e intf => nested stk e intf var
  | .sendRecv intf => nested stk recv intf var

/-- The `while ptr >= 0` walk of `send` (effects.py lines 239-245).
`n` is the current pointer plus one (so `n = 0` is the exhausted walk),
`var` the current content of `_PTR_VAR`.  At each index the pointer is
decremented and persisted before the candidate is examined; on an
`isinstance` match the candidate's callable is invoked and its result
returned; otherwise the walk continues downward. -/
def sendLoopWith (nested : Nested) (stk : List Handler) (eff : EffectInst) :
    Nat → Option Int → DRes
  | 0, var => ⟨.noHandler eff, var, []⟩
  | n + 1, var =>
    match stk[n]? with
    | none => ⟨.err 999, var, []⟩
    | some h =>
      let var' : Option Int := some ((n : Int) - 1)
      if hMatches h eff then
        let r := invokeBodyWith nested stk h eff var'
        ⟨r.out, r.ptr, n :: r.trace⟩
      else
        sendLoopWith nested stk eff n var'

/-- One call to `send(effect, interpret_final)` (effects.py lines
215-247), given the nested-send function: read `_PTR_VAR`; if
`interpret_final` or the pointer is absent, start at the top index
`len(stack) - 1`, else at the persisted pointer; run the walk; in
`finally`, reset `_PTR_VAR` to the value it held on entry. -/
def sendGo (nested : Nested) (stk : List Handler) (eff : EffectInst)
    (interpretFinal : Bool) (var : Option Int) : DRes :=
  let start : Int :=
    match var with
    | none => (stk.length : Int) - 1
    | some p => if interpretFinal then (stk.length : Int) - 1 else p
  let r := sendLoopWith nested stk eff (start + 1).toNat (some start)
  ⟨r.out, var, r.trace⟩

/-- `send` with a recursion budget: a nested send issued from inside a
handler's callable runs with one unit of fuel less. -/
def send : Nat → Nested
  | 0 => sendGo divergeNested
  | fuel + 1 => sendGo (send fuel)

/-- The nested-send function available inside handler callables invoked
by a `send` with budget `fuel`. -/
def nestedOf : Nat → Nested
  | 0 => divergeNested
  | fuel + 1 => send fuel

/-- Invocation of a handler's callable at budget `fuel`. -/
def invokeBody (fuel : Nat) : List Handler → Handler → EffectInst →
    Option Int → DRes :=
  invokeBodyWith (nestedOf fuel)

/-- The walk at budget `fuel`. -/
def sendLoop (fuel : Nat) : List Handler → EffectInst → Nat →
    Option Int → DRes :=
  sendLoopWith (nestedOf fuel)

/-- `safe_send(effect, interpret_final, default_value)` (effects.py lines
266-297): delegate to `send`; a `NoHandlerError` whose carried effect
`is` the sent instance is swallowed and the default returned; any other
`NoHandlerError` is re-raised unchanged. -/
def safe_send (fuel : Nat) (stk : List Handler) (eff : EffectInst)
    (interpretFinal : Bool) (dflt : Nat) (var : Option Int) : DRes :=
  let r := send fuel stk eff interpretFinal var
  match r.out with
  | .noHandler e => if e.ref == eff.ref then ⟨.ok dflt, r.ptr, r.trace⟩ else r
  | _ => r

/-- `barrier(effect_type)` (effects.py lines 300-315): a handler for
`effect_type` whose callable `_raise` raises `NoHandlerError` on the
effect it received; no lifecycle callbacks. -/
def barrier (hid : Nat) (effect_type : Nat) : Handler :=
  ⟨hid, [effect_type], .raiseRecv, false⟩

/-- Specification-side description of "the first (most recently
installed) matching entry": search indices `n-1, n-2, …, 0` for the
first index whose handler matches. -/
def topMatchFrom (stk : List Handler) (eff : EffectInst) : Nat → Option Nat
  | 0 => none
  | n + 1 =>
    match stk[n]? with
    | some h => if hMatches h eff then some n else topMatchFrom stk eff n
    | none => topMatchFrom stk eff n

/-- The topmost matching index of the whole stack. -/
def topMatchIdx (stk : List Handler) (eff : EffectInst) : Option Nat :=
  topMatchFrom stk eff stk.length

/-- A stack is chain-only when no handler body issues a fresh
(`interpret_final=true`) send: every nested send forwards within the
same dispatch chain. -/
def chainOnly (stk : List Handler) : Bool :=
  stk.all (fun h =>
    match h.body with
    | .sendE _ intf => !intf
    | .sendRecv intf => !intf
    | _ => true)

/-- The downward identity search of `_EffectHandler.__exit__`
(effects.py lines 81-82): topmost index holding the handler object
itself. -/
def findTop (stk : List Handler) (hid : Nat) : Nat → Option Nat
  | 0 => none
  | n + 1 =>
    match stk[n]? with
    | some g => if g.hid == hid then some n else findTop stk hid n
    | none => findTop stk hid n

/-- Result of `_EffectHandler.__exit__`: the stack afterwards; `onExitAt`
is `some s` when the `on_exit` callback was invoked with the stack
content being `s` at that moment (ghost observation of ordering), `none`
when it was not invoked; `warned` records an emitted `RuntimeWarning`. -/
structure ExitRes where
  stack : List Handler
  onExitAt : Option (List Handler)
  warned : Bool
deriving DecidableEq, Repr

/-- `_EffectHandler.__exit__` (effects.py lines 72-92): if the stack is
non-empty, search from the top for the entry itself (identity), pop it,
then invoke `on_exit` if supplied; if the stack is empty or the entry is
absent, emit a `RuntimeWarning` and return normally. -/
def exitHandler (stk : List Handler) (h : Handler) : ExitRes :=
  if stk.isEmpty then ⟨stk, none, true⟩
  else
    match findTop stk h.hid stk.length with
    | some i =>
      let stk' := stk.eraseIdx i
      ⟨stk', if h.onExit then some stk' else none, false⟩
    | none => ⟨stk, none, true⟩

end Effects

namespace CtxIso

/-!
Model of `get_stack` (effects.py lines 103-130) and the context-variable
isolation semantics of `_STACK_VAR`.  Python list objects live on a
heap; `Mem.cells` is that heap, a cell index being a list object's
identity.  A context's `_STACK_VAR` content is `Option Nat`: `none` for
the default `None`, `some i` a reference to list object `i`.  A child
context created by `contextvars.copy_context` starts with the same
reference as its parent.  Stack entries are abstracted to their
identities (`Nat`). -/

/-- The heap of list objects. -/
structure Mem where
  cells : List (List Nat)
deriving DecidableEq, Repr

/-- Overwrite the content of list object `i`. -/
def setCell (m : Mem) (i : Nat) (c : List Nat) : Mem :=
  ⟨m.cells.set i c⟩

/-- `get_stack()` (effects.py lines 103-130): read `_STACK_VAR`; if
`None`, the new list is empty, else a copy of the referenced list (a
fresh list object); set `_STACK_VAR` to the new object and return it.
Returns the new heap, the new variable content, and the id of the
returned list object. -/
def get_stack (m : Mem) (v : Option Nat) : Mem × Option Nat × Nat :=
  let content : List Nat :=
    match v with
    | none => []
    | some i => (m.cells[i]?).getD []
  (⟨m.cells ++ [content]⟩, some m.cells.length, m.cells.length)

/-- `_EffectHandler.__enter__` (effects.py lines 58-64): fetch the stack
through `get_stack` and append the handler to it. -/
def enterOp (m : Mem) (v : Option Nat) (h : Nat) : Mem × Option Nat :=
  let r := get_stack m v
  let id := r.2.2
  (setCell r.1 id (((r.1.cells[id]?).getD []) ++ [h]), r.2.1)

/-- Topmost index of `h` in a plain list (the `__exit__` search loop). -/
def findTopNat (l : List Nat) (h : Nat) : Nat → Option Nat
  | 0 => none
  | n + 1 =>
    match l[n]? with
    | some g => if g == h then some n else findTopNat l h n
    | none => findTopNat l h n

/-- `_EffectHandler.__exit__` at the heap level: fetch the stack through
`get_stack`, pop the topmost identity match if present (else only
warn). -/
def exitOp (m : Mem) (v : Option Nat) (h : Nat) : Mem × Option Nat :=
  let r := get_stack m v
  let id := r.2.2
  let content := (r.1.cells[id]?).getD []
  match findTopNat content h content.length with
  | some i => (setCell r.1 id (content.eraseIdx i), r.2.1)
  | none => (r.1, r.2.1)

/-- The operations a context can perform on its handler stack. -/
inductive COp where
  | access
  | push (h : Nat)
  | release (h : Nat)
deriving DecidableEq, Repr

/-- One stack operation performed by a context. -/
def doOp (m : Mem) (v : Option Nat) : COp → Mem × Option Nat
  | .access => let r := get_stack m v; (r.1, r.2.1)
  | .push h => enterOp m v h
  | .release h => exitOp m v h

/-- Run a sequence of stack operations in one context, threading the
heap and that context's `_STACK_VAR`. -/
def runOps : Mem → Option Nat → List COp → Mem × Option Nat
  | m, v, [] => (m, v)
  | m, v, op :: ops => runOps (doOp m v op).1 (doOp m v op).2 ops

end CtxIso

namespace UtilCM

/-!
Model of `util.stack` (util.py).  A component context manager is
abstracted by its identity and its `__exit__` behaviour: `exitErr = none`
means a normal return, `some c` that `__exit__` raises exception `c`. -/

/-- A component context manager of a `stack`. -/
structure CM where
  cid : Nat
  exitErr : Option Nat
deriving DecidableEq, Repr

/-- The `for context_manager in reversed(...)` loop body of
`stack.__exit__` run on an already-reversed list: call each `__exit__` in
order; a raised exception propagates immediately, aborting the loop.
Returns the propagated exception (if any) and the ghost list of
component ids whose `__exit__` was called, in call order. -/
def exitSeq : List CM → Option Nat × List Nat
  | [] => (none, [])
  | cm :: rest =>
    match cm.exitErr with
    | some c => (some c, [cm.cid])
    | none =>
      let r := exitSeq rest
      (r.1, cm.cid :: r.2)

/-- `stack.__exit__` (util.py lines 31-41): iterate the components in
reverse order of entry. -/
def stackExit (cms : List CM) : Option Nat × List Nat :=
  exitSeq cms.reverse

end UtilCM

namespace PyTy

/-!
Model of `src/effects/_typing.py` and the registration logic of
`handler` (effects.py lines 152-212).

Python runtime classes are class ids (`Nat`); `issubclass` is given by a
`ClassTable`.  Type annotations are modelled by `Ann`, covering the
annotation shapes the claims exercise: `Any`, a type variable, a plain
class, a parameterized class (`Box[int]`), and a union.  A field value is
abstracted by its runtime class (`type(value)`), which is the only thing
`_collect_typevar_bindings` consumes for these annotation shapes (the
container and callable branches of the source function are not
reachable from them).  An effect instance for the matcher carries its
runtime class, its attribute dictionary (name to runtime class of the
stored value) and the optional `__effect_type_args__` cache. -/

/-- A type annotation. -/
inductive Ann where
  | anyT
  | tvar (t : Nat)
  | cls (c : Nat)
  | generic (base : Nat) (args : List Ann)
  | unionA (opts : List Ann)

/-- The class environment: `issub` is `issubclass`; `params` the
`__parameters__` (type-variable ids) of a class; `fieldAnns` its
`__annotations__`. -/
structure ClassTable where
  issub : Nat → Nat → Bool
  params : Nat → List Nat
  fieldAnns : Nat → List (String × Ann)

/-- An effect instance as seen by the type matcher. -/
structure TEff where
  cls : Nat
  fields : List (String × Nat)
  typeArgsCache : Option (List Nat)

/-- `dict.setdefault`: bind `k` to `v` only if `k` is unbound (first
writer wins). -/
def setdefaultB (b : List (Nat × Nat)) (k v : Nat) : List (Nat × Nat) :=
  if (b.lookup k).isSome then b else b ++ [(k, v)]

mutual

/-- `_collect_typevar_bindings` (_typing.py lines 156-255) restricted to
the annotation shapes of `Ann`: a type variable binds to the value's
runtime class via `setdefault`; a union recurses into each option with
the same value; `Any` and a plain class have origin `None` and return;
a parameterized class whose origin is an ordinary (non-container,
non-callable) class falls to the default branch and returns. -/
def collectTv : Ann → Nat → List (Nat × Nat) → List (Nat × Nat)
  | .tvar t, v, b => setdefaultB b t v
  | .unionA opts, v, b => collectTvL opts v b
  | .anyT, _, b => b
  | .cls _, _, b => b
  | .generic _ _, _, b => b

/-- Sequential recursion over a union's options. -/
def collectTvL : List Ann → Nat → List (Nat × Nat) → List (Nat × Nat)
  | [], _, b => b
  | a :: rest, v, b => collectTvL rest v (collectTv a v b)

end

mutual

/-- `_annotation_contains_typevar` (_typing.py lines 263-271). -/
def annContainsTvar : Ann → Bool
  | .tvar _ => true
  | .unionA opts => annContainsTvarL opts
  | .generic _ args => annContainsTvarL args
  | .anyT => false
  | .cls _ => false

/-- Disjunction over the arguments of a union or parameterized class. -/
def annContainsTvarL : List Ann → Bool
  | [] => false
  | a :: rest => annContainsTvar a || annContainsTvarL rest

end

/-- `_class_has_typevar_annotations` (_typing.py lines 258-260). -/
def classHasTvarAnns (tbl : ClassTable) (c : Nat) : Bool :=
  (tbl.fieldAnns c).any (fun na => annContainsTvar na.2)

mutual

/-- `_type_arg_matches` (_typing.py lines 274-293): `Any` matches
anything; a union matches when some option does; a bare type variable
matches anything; a plain class matches by `issubclass(actual,
expected)`; a parameterized expected argument compares unequal to a
plain runtime class. -/
def typeArgMatches (tbl : ClassTable) : Ann → Nat → Bool
  | .anyT, _ => true
  | .unionA opts, a => typeArgMatchesAny tbl opts a
  | .tvar _, _ => true
  | .cls c, a => tbl.issub a c
  | .generic _ _, _ => false

/-- Disjunction over a union's options. -/
def typeArgMatchesAny (tbl : ClassTable) : List Ann → Nat → Bool
  | [], _ => false
  | o :: rest, a => typeArgMatches tbl o a || typeArgMatchesAny tbl rest a

end

/-- `get_args` on an annotation. -/
def getArgs : Ann → List Ann
  | .generic _ args => args
  | .unionA opts => opts
  | _ => []

/-- `effect_class_from_annotation` (_typing.py lines 87-94): the origin
of a parameterized annotation, or the annotation itself; raises
`TypeError` unless it is a class that subclasses the effect base. -/
def effect_class_from_annotation (tbl : ClassTable) (effectBase : Nat) :
    Ann → Except String Nat
  | .cls c =>
    if tbl.issub c effectBase then .ok c
    else .error "Effect handler must target Effect subclasses."
  | .generic b _ =>
    if tbl.issub b effectBase then .ok b
    else .error "Effect handler must target Effect subclasses."
  | _ => .error "Effect handler must target Effect subclasses."

/-- `infer_effect_type_args_from_instance` (_typing.py lines 126-153):
collect type-variable bindings from the class's field annotations and
the runtime classes of the instance's attribute values (skipping absent
attributes), then resolve the first `expected_len` parameters; `none`
when the class has no parameters or some parameter stayed unbound. -/
def inferFromInstance (tbl : ClassTable) (e : TEff) (ecls : Nat)
    (expectedLen : Nat) : Option (List Nat) :=
  let ps := tbl.params ecls
  if ps.isEmpty then none
  else
    let bindings := (tbl.fieldAnns ecls).foldl
      (fun b na =>
        match e.fields.lookup na.1 with
        | none => b
        | some v => collectTv na.2 v b) []
    let resolved := (ps.take expectedLen).map (fun p => bindings.lookup p)
    if resolved.any Option.isNone then none
    else some (resolved.map (fun o => o.getD 0))

/-- `infer_effect_type_args` (_typing.py lines 97-123): zero expected
arguments resolve trivially; a cached `__effect_type_args__` tuple of the
expected length is authoritative; otherwise fall back to instance
inference. -/
def infer_effect_type_args (tbl : ClassTable) (e : TEff) (ecls : Nat)
    (expectedLen : Nat) : Option (List Nat) :=
  if expectedLen == 0 then some []
  else
    match e.typeArgsCache with
    | some stored =>
      if stored.length == expectedLen then some stored
      else inferFromInstance tbl e ecls expectedLen
    | none => inferFromInstance tbl e ecls expectedLen

/-- `annotation_matches_effect` (_typing.py lines 48-66): the instance
must be an `isinstance` of the annotation's class; with no declared
arguments the class alone decides; if inference fails the specialization
matches only a class without type-variable annotations; otherwise every
declared argument must accept the corresponding inferred one. -/
def annotation_matches_effect (tbl : ClassTable) (effectBase : Nat)
    (e : TEff) (ann : Ann) : Except String Bool :=
  match effect_class_from_annotation tbl effectBase ann with
  | .error s => .error s
  | .ok ecls =>
    if !(tbl.issub e.cls ecls) then .ok false
    else
      let expectedArgs := getArgs ann
      if expectedArgs.isEmpty then .ok true
      else
        match infer_effect_type_args tbl e ecls expectedArgs.length with
        | none => .ok (!(classHasTvarAnns tbl ecls))
        | some inferred =>
          .ok ((expectedArgs.zip inferred).all
            (fun pa => typeArgMatches tbl pa.1 pa.2))

/-- The `effect_type` argument of `handler`: a class object or some
other (non-class) Python object. -/
inductive ESpec where
  | cls (c : Nat)
  | nonType (n : Nat)
deriving DecidableEq, Repr

/-- A parameter of a handler function: its name and annotation (`none`
models `inspect.Parameter.empty`). -/
structure FuncParam where
  pname : String
  ann : Option Ann

/-- `handler` (effects.py lines 152-212), reduced to the `_effect_type`
it stores.  An explicitly supplied `effect_type` is stored without any
validation.  Otherwise the first parameter's annotation is taken; a
parameterized annotation is erased to its `__origin__` class; an
annotation that is not a class object (a bare type variable, `Any`, or —
on Python 3.12, which has no `__origin__` on union objects — a union)
fails the `isinstance(effect_type, type)` test; a class that is not an
`Effect` subclass is rejected. -/
def handler_cons (tbl : ClassTable) (effectBase : Nat)
    (ps : List FuncParam) (effect_type : Option ESpec) : Except String ESpec :=
  match effect_type with
  | some sp => .ok sp
  | none =>
    match ps with
    | [] => .error "Cannot infer effect type: handler_func has no parameters."
    | p :: _ =>
      match p.ann with
      | none => .error "Cannot infer effect type: parameter has no type annotation."
      | some ann =>
        match ann with
        | .generic b _ =>
          if tbl.issub b effectBase then .ok (.cls b)
          else .error "Inferred type is not a subclass of Effect."
        | .cls c =>
          if tbl.issub c effectBase then .ok (.cls c)
          else .error "Inferred type is not a subclass of Effect."
        | _ => .error "Inferred type is not a subclass of Effect."

end PyTy

/-!
## Concrete fixtures

Named concrete stacks, handlers and effect instances used by the
witness theorems and the concrete-evaluation theorems below.
-/

namespace Effects

/-- An effect instance of class `10` (a subclass of the effect base `0`). -/
def wq : EffectInst := ⟨100, [10, 0]⟩

/-- A distinct effect instance of a different class `11`. -/
def wq2 : EffectInst := ⟨101, [11, 0]⟩

/-- A handler for class `10` returning `7`. -/
def wA : Handler := ⟨1, [10], .const 7, true⟩

/-- A second handler for class `10` returning `8`. -/
def wB : Handler := ⟨2, [10], .const 8, true⟩

/-- A handler for class `10` that forwards the received effect with
`interpret_final=false`. -/
def wFwd : Handler := ⟨3, [10], .sendRecv false, true⟩

/-- A handler for class `10` whose body sends the unrelated effect `wq2`
(a nested dependency that will go unmatched). -/
def wT : Handler := ⟨4, [10], .sendE wq2 true, true⟩

/-- A barrier for class `10`. -/
def wBar : Handler := barrier 9 10

end Effects

namespace CtxIso

/-- A parent heap with one list object `[5, 6]` at id `0`. -/
def mem0 : Mem := ⟨[[5, 6]]⟩

end CtxIso

namespace UtilCM

/-- A component whose release succeeds. -/
def cmOK : CM := ⟨0, none⟩

/-- A component whose release raises exception `5`. -/
def cmBad : CM := ⟨1, some 5⟩

/-- A second component whose release succeeds. -/
def cmOK2 : CM := ⟨2, none⟩

end UtilCM

namespace PyTy

/-- The class table of the `Box` scenario: class ids `0` = `Effect`,
`1` = `Box` (an `Effect` subclass, one type parameter `T = 0`, one field
`value : T`), `2` = `int`, `3` = `str`, `4` = `float`. -/
def tbl5 : ClassTable :=
  ⟨fun a b => a == b || (a == 1 && b == 0),
   fun c => if c == 1 then [0] else [],
   fun c => if c == 1 then [("value", .tvar 0)] else []⟩

/-- The annotation `Box[int]`. -/
def annBoxInt : Ann := .generic 1 [.cls 2]

/-- The annotation `Box[str]`. -/
def annBoxStr : Ann := .generic 1 [.cls 3]

/-- The instance `Box(5)`: field `value` holds an `int`. -/
def box5 : TEff := ⟨1, [("value", 2)], none⟩

/-- The instance `Box("x")`: field `value` holds a `str`. -/
def boxX : TEff := ⟨1, [("value", 3)], none⟩

/-- The instance `Box(5.0)`: field `value` holds a `float`. -/
def box5f : TEff := ⟨1, [("value", 4)], none⟩

/-- The dispatcher-side view of `Box(5.0)`: the dispatcher of
`effects.py` sees only the runtime class (`Box`, subclassing `Effect`),
never the payload type. -/
def effBox5f : Effects.EffectInst := ⟨30, [1, 0]⟩

/-- The handler registered with annotation `Box[int]`, as stored by
`handler`: `_effect_type` erased to the origin class `Box = 1`;
returns `1`. -/
def hBoxInt : Effects.Handler := ⟨21, [1], .const 1, false⟩

/-- The handler registered with annotation `Box[str]`: `_effect_type`
likewise erased to `Box = 1`; returns `2`. -/
def hBoxStr : Effects.Handler := ⟨22, [1], .const 2, false⟩

end PyTy

/-!
## Theorems
-/

namespace Effects

/-- Arithmetic helper for the walk's starting index. -/
theorem intShift (n : Nat) : (((n : Int) - 1) + 1).toNat = n := by omega

/-- `send fuel` is the staged dispatcher instantiated with the
nested-send function of budget `fuel`. -/
theorem send_eq_go (fuel : Nat) :
    send fuel = sendGo (nestedOf fuel) := by
  cases fuel <;> rfl

/-- `send` with `interpret_final=true` runs the walk from the top index,
whatever the pointer held, and restores the pointer. -/
theorem send_true_eq (fuel : Nat) (stk : List Handler) (eff : EffectInst)
    (var : Option Int) :
    send fuel stk eff true var =
      ⟨(sendLoop fuel stk eff stk.length (some ((stk.length : Int) - 1))).out,
       var,
       (sendLoop fuel stk eff stk.length (some ((stk.length : Int) - 1))).trace⟩ := by
  rw [send_eq_go]
  cases var <;> simp [sendGo, sendLoop, intShift]

/-- `send` with `interpret_final=false` and an absent pointer also
starts at the top index. -/
theorem send_false_none_eq (fuel : Nat) (stk : List Handler)
    (eff : EffectInst) :
    send fuel stk eff false none = send fuel stk eff true none := by
  rw [send_eq_go]
  rfl

/-- `send` with `interpret_final=false` and a persisted pointer `p`
resumes the walk at `p`. -/
theorem send_false_eq (fuel : Nat) (stk : List Handler) (eff : EffectInst)
    (p : Int) :
    send fuel stk eff false (some p) =
      ⟨(sendLoop fuel stk eff (p + 1).toNat (some p)).out,
       some p,
       (sendLoop fuel stk eff (p + 1).toNat (some p)).trace⟩ := by
  rw [send_eq_go]
  simp [sendGo, sendLoop]

/-- The pointer component of `send`'s result is always its entry
value. -/
theorem send_ptr (fuel : Nat) (stk : List Handler) (eff : EffectInst)
    (interpretFinal : Bool) (var : Option Int) :
    (send fuel stk eff interpretFinal var).ptr = var := by
  rw [send_eq_go]
  rfl

/-- A walk over a range with no matching handler raises `NoHandlerError`
on the sent effect and invokes nobody. -/
theorem sendLoopWith_out_none (nested : Nested) (stk : List Handler)
    (eff : EffectInst) :
    ∀ n, n ≤ stk.length → topMatchFrom stk eff n = none → ∀ var,
      (sendLoopWith nested stk eff n var).out = .noHandler eff ∧
      (sendLoopWith nested stk eff n var).trace = [] := by
  intro n
  induction n with
  | zero => intro _ _ var; simp [sendLoopWith]
  | succ n' ih =>
    intro hle hnone var
    have hlt : n' < stk.length := Nat.lt_of_succ_le hle
    obtain ⟨h, hg⟩ : ∃ h, stk[n']? = some h :=
      ⟨stk[n'], List.getElem?_eq_getElem hlt⟩
    rw [topMatchFrom, hg] at hnone
    by_cases hm : hMatches h eff
    · simp [hm] at hnone
    · simp [hm] at hnone
      have := ih (Nat.le_of_lt hlt) hnone (some ((n' : Int) - 1))
      simpa [sendLoopWith, hg, hm] using this

/-- A walk over a range whose topmost match is index `i` invokes exactly
that handler's callable, with the pointer already persisted one below
`i`, and returns its result. -/
theorem sendLoopWith_out_some (nested : Nested) (stk : List Handler)
    (eff : EffectInst) :
    ∀ n, n ≤ stk.length → ∀ i, topMatchFrom stk eff n = some i → ∀ var,
      ∃ h, stk[i]? = some h ∧ hMatches h eff = true ∧
        sendLoopWith nested stk eff n var =
          ⟨(invokeBodyWith nested stk h eff (some ((i : Int) - 1))).out,
           (invokeBodyWith nested stk h eff (some ((i : Int) - 1))).ptr,
           i :: (invokeBodyWith nested stk h eff (some ((i : Int) - 1))).trace⟩ := by
  intro n
  induction n with
  | zero => intro _ i hsome; simp [topMatchFrom] at hsome
  | succ n' ih =>
    intro hle i hsome var
    have hlt : n' < stk.length := Nat.lt_of_succ_le hle
    obtain ⟨h, hg⟩ : ∃ h, stk[n']? = some h :=
      ⟨stk[n'], List.getElem?_eq_getElem hlt⟩
    rw [topMatchFrom, hg] at hsome
    by_cases hm : hMatches h eff
    · simp [hm] at hsome
      subst hsome
      exact ⟨h, hg, hm, by simp [sendLoopWith, hg, hm]⟩
    · simp [hm] at hsome
      obtain ⟨g, hgg, hgm, heq⟩ := ih (Nat.le_of_lt hlt) i hsome (some ((n' : Int) - 1))
      exact ⟨g, hgg, hgm, by rw [sendLoopWith, hg]; simp only [hm]; simp [heq]⟩

/-- If the top element of the stack matches, it is the topmost match. -/
theorem topMatchIdx_append (stk : List Handler) (eff : EffectInst)
    (h : Handler) (hm : hMatches h eff = true) :
    topMatchIdx (stk ++ [h]) eff = some stk.length := by
  have hg : (stk ++ [h])[stk.length]? = some h := by
    rw [List.getElem?_append_right (Nat.le_refl _)]
    simp
  rw [topMatchIdx, List.length_append, List.length_singleton, topMatchFrom, hg]
  simp [hm]

/-- Erasing the last element of a one-longer list. -/
theorem eraseIdx_concat (stk : List Handler) (h : Handler) :
    (stk ++ [h]).eraseIdx stk.length = stk := by
  induction stk with
  | nil => rfl
  | cons a t ih => simpa [List.eraseIdx] using ih

/-- Releasing the top entry through `__exit__` removes exactly it. -/
theorem exit_top (stk : List Handler) (h : Handler) :
    (exitHandler (stk ++ [h]) h).stack = stk := by
  have hg : (stk ++ [h])[stk.length]? = some h := by
    rw [List.getElem?_append_right (Nat.le_refl _)]
    simp
  have hft : findTop (stk ++ [h]) h.hid (stk ++ [h]).length = some stk.length := by
    rw [List.length_append, List.length_singleton, findTop, hg]
    simp
  have hne : (stk ++ [h]).isEmpty = false := by
    cases stk <;> rfl
  rw [exitHandler, hne]
  simp only [Bool.false_eq_true, if_false, hft]
  exact eraseIdx_concat stk h

/-- C1: `send(effect, interpret_final=true)` walks the stack from the
top downward and invokes the callable of the first entry whose accepted
classes contain the effect's runtime class or an ancestor of it,
returning that callable's result as its own; if nothing matches, it
raises `NoHandlerError` carrying the sent instance and invokes no
callable.  A freshly appended matching entry is the one that answers,
and releasing it through `__exit__` restores the previous stack, so the
previously installed entry answers again. -/
theorem C1_send_dispatches_topmost_match (fuel : Nat) (stk : List Handler)
    (eff : EffectInst) (var : Option Int) :
    (∀ i h, topMatchIdx stk eff = some i → stk[i]? = some h →
      (send fuel stk eff true var).out
        = (invokeBody fuel stk h eff (some ((i : Int) - 1))).out) ∧
    (topMatchIdx stk eff = none →
      (send fuel stk eff true var).out = .noHandler eff ∧
      (send fuel stk eff true var).trace = []) ∧
    (∀ h, hMatches h eff = true →
      (send fuel (stk ++ [h]) eff true var).out
        = (invokeBody fuel (stk ++ [h]) h eff (some ((stk.length : Int) - 1))).out) ∧
    (∀ h, (exitHandler (stk ++ [h]) h).stack = stk) := by
  refine ⟨?_, ?_, ?_, fun h => exit_top stk h⟩
  · intro i h hidx hget
    obtain ⟨g, hgg, _, heq⟩ :=
      sendLoopWith_out_some (nestedOf fuel) stk eff stk.length (Nat.le_refl _)
        i hidx (some ((stk.length : Int) - 1))
    have hgh : g = h := by rw [hgg] at hget; exact Option.some.inj hget
    subst hgh
    rw [send_true_eq, sendLoop, heq]
    rfl
  · intro hnone
    have := sendLoopWith_out_none (nestedOf fuel) stk eff stk.length
      (Nat.le_refl _) hnone (some ((stk.length : Int) - 1))
    rw [send_true_eq, sendLoop]
    exact this
  · intro h hm
    obtain ⟨g, hgg, _, heq⟩ :=
      sendLoopWith_out_some (nestedOf fuel) (stk ++ [h]) eff (stk ++ [h]).length
        (Nat.le_refl _) stk.length
        (by simpa [topMatchIdx] using topMatchIdx_append stk eff h hm)
        (some (((stk ++ [h]).length : Int) - 1))
    have hg : (stk ++ [h])[stk.length]? = some h := by
      rw [List.getElem?_append_right (Nat.le_refl _)]
      simp
    have hgh : g = h := by rw [hgg] at hg; exact Option.some.inj hg
    subst hgh
    rw [send_true_eq, sendLoop, heq]
    rfl

/-- Witness for C1 at a concrete two-handler stack: the top handler `wB`
answers with `8`; releasing it restores `[wA]`, on which `wA` answers
with `7`; the empty stack raises `NoHandlerError` on the sent
instance. -/
theorem C1_witness :
    (send 5 [wA, wB] wq true none).out
        = (invokeBody 5 [wA, wB] wB wq (some 0)).out ∧
    (send 5 [wA] wq true none).out
        = (invokeBody 5 [wA] wA wq (some (-1))).out ∧
    (send 5 [] wq true none).out = .noHandler wq ∧
    (exitHandler [wA, wB] wB).stack = [wA] ∧
    (send 5 [wA, wB] wq true none).out = .ok 8 ∧
    (send 5 [wA] wq true none).out = .ok 7 := by
  refine ⟨?_, ?_, ?_, ?_, by decide, by decide⟩
  · exact (C1_send_dispatches_topmost_match 5 [wA, wB] wq none).1 1 wB
      (by decide) (by decide)
  · exact (C1_send_dispatches_topmost_match 5 [wA] wq none).1 0 wA
      (by decide) (by decide)
  · exact ((C1_send_dispatches_topmost_match 5 [] wq none).2.1 (by decide)).1
  · exact (C1_send_dispatches_topmost_match 5 [wA] wq none).2.2.2 wB

/-- C3: on every completion of `send` — a handler result, a
`NoHandlerError`, an arbitrary handler exception, or even exhaustion of
the recursion budget — the resolution pointer is exactly what it was on
entry, and the same holds for `safe_send`. -/
theorem C3_pointer_restored (fuel : Nat) (stk : List Handler)
    (eff : EffectInst) (interpretFinal : Bool) (dflt : Nat)
    (var : Option Int) :
    (send fuel stk eff interpretFinal var).ptr = var ∧
    (safe_send fuel stk eff interpretFinal dflt var).ptr = var := by
  refine ⟨send_ptr fuel stk eff interpretFinal var, ?_⟩
  rw [safe_send]
  rcases hs : send fuel stk eff interpretFinal var with ⟨o, p, t⟩
  have hp : p = var := by
    have := send_ptr fuel stk eff interpretFinal var
    rw [hs] at this
    exact this
  subst hp
  cases o with
  | ok v => rfl
  | noHandler e => by_cases h : e.ref == eff.ref <;> simp [h]
  | err c => rfl
  | diverge => rfl

end Effects

namespace Effects

/-- C4: `safe_send` returns the handler's result when dispatch succeeds;
returns the default when the raised `NoHandlerError` carries the very
instance that was sent (identity comparison); and re-raises unchanged a
`NoHandlerError` carrying any other instance (e.g. one raised
transitively by a matching handler whose own nested send went
unmatched). -/
theorem C4_safe_send_identity (fuel : Nat) (stk : List Handler)
    (eff : EffectInst) (interpretFinal : Bool) (dflt : Nat)
    (var : Option Int) :
    (∀ v p t, send fuel stk eff interpretFinal var = ⟨.ok v, p, t⟩ →
      safe_send fuel stk eff interpretFinal dflt var = ⟨.ok v, p, t⟩) ∧
    (∀ e p t, send fuel stk eff interpretFinal var = ⟨.noHandler e, p, t⟩ →
      e.ref = eff.ref →
      safe_send fuel stk eff interpretFinal dflt var = ⟨.ok dflt, p, t⟩) ∧
    (∀ e p t, send fuel stk eff interpretFinal var = ⟨.noHandler e, p, t⟩ →
      e.ref ≠ eff.ref →
      safe_send fuel stk eff interpretFinal dflt var = ⟨.noHandler e, p, t⟩) := by
  refine ⟨?_, ?_, ?_⟩
  · intro v p t hs
    rw [safe_send, hs]
  · intro e p t hs he
    rw [safe_send, hs]
    simp [he]
  · intro e p t hs he
    rw [safe_send, hs]
    simp [he]

/-- Witness for C4: on the empty stack `safe_send` swallows the
`NoHandlerError` for the sent instance `wq` and returns the default
`42`; with the matching handler `wT` whose body sends the unmatched
foreign effect `wq2`, the transitively raised `NoHandlerError` carrying
`wq2` is re-raised unchanged. -/
theorem C4_witness :
    safe_send 5 [] wq true 42 none = ⟨.ok 42, none, []⟩ ∧
    safe_send 5 [wT] wq true 42 none = ⟨.noHandler wq2, none, [0]⟩ := by
  constructor
  · exact (C4_safe_send_identity 5 [] wq true 42 none).2.1 wq none []
      (by decide) rfl
  · exact (C4_safe_send_identity 5 [wT] wq true 42 none).2.2 wq2 none [0]
      (by decide) (by decide)

/-- C9: a `barrier` entry's callable raises `NoHandlerError` carrying
the very instance it received; consequently, whenever the barrier is
the entry that answers the dispatch, `safe_send` returns the default —
indistinguishable, to `safe_send`, from no handler existing at all. -/
theorem C9_barrier_raises_received (fuel : Nat) (stk : List Handler)
    (eff : EffectInst) (var : Option Int) (dflt hid c : Nat) :
    (∀ varx, invokeBody fuel stk (barrier hid c) eff varx
      = ⟨.noHandler eff, varx, []⟩) ∧
    (∀ i, topMatchIdx stk eff = some i → stk[i]? = some (barrier hid c) →
      safe_send fuel stk eff true dflt var = ⟨.ok dflt, var, [i]⟩) := by
  refine ⟨fun varx => rfl, ?_⟩
  intro i hidx hget
  obtain ⟨g, hgg, _, heq⟩ :=
    sendLoopWith_out_some (nestedOf fuel) stk eff stk.length (Nat.le_refl _)
      i hidx (some ((stk.length : Int) - 1))
  have hgh : g = barrier hid c := by rw [hgg] at hget; exact Option.some.inj hget
  subst hgh
  have hsend : send fuel stk eff true var = ⟨.noHandler eff, var, [i]⟩ := by
    rw [send_true_eq, sendLoop, heq]
    rfl
  rw [safe_send, hsend]
  simp

/-- Witness for C9: with stack `[wA, wBar]` the barrier (top) answers
the dispatch of `wq` and `safe_send` returns the default `42`, although
`wA` below would have handled it. -/
theorem C9_witness :
    invokeBody 5 [wA, wBar] wBar wq (some 0) = ⟨.noHandler wq, some 0, []⟩ ∧
    safe_send 5 [wA, wBar] wq true 42 none = ⟨.ok 42, none, [1]⟩ := by
  constructor
  · exact (C9_barrier_raises_received 5 [wA, wBar] wq none 42 9 10).1 (some 0)
  · exact (C9_barrier_raises_received 5 [wA, wBar] wq none 42 9 10).2 1
      (by decide) (by decide)

/-- A strictly descending chain stays one when a strict upper bound of
the list is prepended. -/
theorem chain_gt_cons (i : Nat) (t : List Nat) (hb : ∀ j ∈ t, j < i)
    (hc : t.Chain' (· > ·)) : (i :: t).Chain' (· > ·) := by
  cases t with
  | nil => simp
  | cons x t' => exact List.Chain'.cons (hb x (by simp)) hc

/-- In a chain-only stack (all nested sends forward with
`interpret_final=false`), the walk starting below index `n` only ever
invokes handlers at indices below `n`, in strictly descending order:
each invoked handler saw the pointer persisted below itself before
running, so no handler is re-entered and nothing above the walk's start
is reached. -/
theorem sendLoop_trace_chain (stk : List Handler)
    (hco : chainOnly stk = true) :
    ∀ fuel n eff var,
      (∀ j ∈ (sendLoop fuel stk eff n var).trace, j < n) ∧
      ((sendLoop fuel stk eff n var).trace).Chain' (· > ·) := by
  intro fuel
  induction fuel using Nat.strong_induction_on with
  | _ fuel IH =>
    intro n
    induction n with
    | zero => intro eff var; simp [sendLoop, sendLoopWith]
    | succ n' ihn =>
      intro eff var
      cases hg : stk[n']? with
      | none => simp [sendLoop, sendLoopWith, hg]
      | some h =>
        by_cases hm : hMatches h eff
        · have hmem : h ∈ stk := List.getElem?_mem hg
          have hbody := List.all_eq_true.mp hco h hmem
          have hinner : ∀ recv,
              (∀ j ∈ (invokeBody fuel stk h recv (some ((n' : Int) - 1))).trace,
                j < n') ∧
              ((invokeBody fuel stk h recv (some ((n' : Int) - 1))).trace).Chain'
                (· > ·) := by
            intro recv
            cases hb : h.body with
            | const v => simp [invokeBody, invokeBodyWith, hb]
            | raiseRecv => simp [invokeBody, invokeBodyWith, hb]
            | throwErr c => simp [invokeBody, invokeBodyWith, hb]
            | sendE e intf =>
              have hif : intf = false := by
                rw [hb] at hbody; simpa using hbody
              subst hif
              cases fuel with
              | zero => simp [invokeBody, invokeBodyWith, hb, nestedOf, divergeNested]
              | succ f =>
                have hrw : invokeBody (f + 1) stk h recv (some ((n' : Int) - 1))
                    = send f stk e false (some ((n' : Int) - 1)) := by
                  simp [invokeBody, invokeBodyWith, hb, nestedOf]
                rw [hrw, send_false_eq, intShift]
                exact ⟨fun j hj => ((IH f (Nat.lt_succ_self f) n' e
                    (some ((n' : Int) - 1))).1 j hj),
                  (IH f (Nat.lt_succ_self f) n' e (some ((n' : Int) - 1))).2⟩
            | sendRecv intf =>
              have hif : intf = false := by
                rw [hb] at hbody; simpa using hbody
              subst hif
              cases fuel with
              | zero => simp [invokeBody, invokeBodyWith, hb, nestedOf, divergeNested]
              | succ f =>
                have hrw : invokeBody (f + 1) stk h recv (some ((n' : Int) - 1))
                    = send f stk recv false (some ((n' : Int) - 1)) := by
                  simp [invokeBody, invokeBodyWith, hb, nestedOf]
                rw [hrw, send_false_eq, intShift]
                exact ⟨fun j hj => ((IH f (Nat.lt_succ_self f) n' recv
                    (some ((n' : Int) - 1))).1 j hj),
                  (IH f (Nat.lt_succ_self f) n' recv (some ((n' : Int) - 1))).2⟩
          have hres : (sendLoop fuel stk eff (n' + 1) var).trace
              = n' :: (invokeBody fuel stk h eff (some ((n' : Int) - 1))).trace := by
            simp [sendLoop, sendLoopWith, hg, hm, invokeBody]
          rw [hres]
          refine ⟨?_, ?_⟩
          · intro j hj
            rcases List.mem_cons.mp hj with hj | hj
            · omega
            · exact Nat.lt_succ_of_lt ((hinner eff).1 j hj)
          · exact chain_gt_cons n' _ (hinner eff).1 (hinner eff).2
        · have hres : sendLoop fuel stk eff (n' + 1) var
              = sendLoop fuel stk eff n' (some ((n' : Int) - 1)) := by
            simp [sendLoop, sendLoopWith, hg, hm]
          rw [hres]
          exact ⟨fun j hj => Nat.lt_succ_of_lt
              ((ihn eff (some ((n' : Int) - 1))).1 j hj),
            (ihn eff (some ((n' : Int) - 1))).2⟩

/-- C2: in a dispatch chain (a chain-only stack), a
`send(E, interpret_final=false)` issued with the pointer persisted at
`p` — which is one below the invoking handler's own index — only invokes
handlers at indices at most `p`, in strictly descending order, so the
invoking handler and everything above it are never re-invoked in the
same chain.  When `interpret_final=true`, or when no chain is in flight
(`_PTR_VAR` absent), the search starts at the topmost index regardless
of the pointer. -/
theorem C2_forwarding_resumes_below (fuel : Nat) (stk : List Handler)
    (eff : EffectInst) (p : Int) (var : Option Int)
    (hco : chainOnly stk = true) :
    (∀ j ∈ (send fuel stk eff false (some p)).trace, (j : Int) ≤ p) ∧
    ((send fuel stk eff false (some p)).trace).Chain' (· > ·) ∧
    ((send fuel stk eff true var).trace).Chain' (· > ·) ∧
    send fuel stk eff true var =
      ⟨(send fuel stk eff true none).out, var,
       (send fuel stk eff true none).trace⟩ ∧
    send fuel stk eff false none = send fuel stk eff true none := by
  refine ⟨?_, ?_, ?_, ?_, send_false_none_eq fuel stk eff⟩
  · intro j hj
    rw [send_false_eq] at hj
    simp only at hj
    have := (sendLoop_trace_chain stk hco fuel (p + 1).toNat eff (some p)).1 j hj
    omega
  · rw [send_false_eq]
    exact (sendLoop_trace_chain stk hco fuel (p + 1).toNat eff (some p)).2
  · rw [send_true_eq]
    exact (sendLoop_trace_chain stk hco fuel stk.length eff
      (some ((stk.length : Int) - 1))).2
  · rw [send_true_eq, send_true_eq]

/-- Witness for C2 on the concrete stack `[wA, wFwd]` (a forwarding
handler above a base handler): the forwarded search from pointer `0`
stays at indices ≤ 0, the whole dispatch trace `[1, 0]` is strictly
descending (`wFwd` is invoked once and never re-entered), and the
dispatch returns the base handler's value. -/
theorem C2_witness :
    (∀ j ∈ (send 5 [wA, wFwd] wq false (some 0)).trace, (j : Int) ≤ 0) ∧
    ((send 5 [wA, wFwd] wq true none).trace).Chain' (· > ·) ∧
    send 5 [wA, wFwd] wq true none = ⟨.ok 7, none, [1, 0]⟩ := by
  refine ⟨(C2_forwarding_resumes_below 5 [wA, wFwd] wq 0 none (by decide)).1,
    (C2_forwarding_resumes_below 5 [wA, wFwd] wq 0 none (by decide)).2.2.1,
    by decide⟩

end Effects

namespace Effects

/-- `findTop` finds the topmost occurrence: its result is in range,
holds the searched identity, and nothing above it in the searched range
does; a `none` result means the identity is absent from the range. -/
theorem findTop_spec (stk : List Handler) (hid : Nat) :
    ∀ n,
      (∀ i, findTop stk hid n = some i →
        i < n ∧ (∃ g, stk[i]? = some g ∧ g.hid = hid) ∧
        ∀ j, i < j → j < n → ∀ g, stk[j]? = some g → g.hid ≠ hid) ∧
      (findTop stk hid n = none →
        ∀ j, j < n → ∀ g, stk[j]? = some g → g.hid ≠ hid) := by
  intro n
  induction n with
  | zero =>
    constructor
    · intro i hi; simp [findTop] at hi
    · intro _ j hj; omega
  | succ n' ih =>
    constructor
    · intro i hi
      rw [findTop] at hi
      cases hg : stk[n']? with
      | none =>
        rw [hg] at hi
        obtain ⟨hilt, hex, habove⟩ := ih.1 i hi
        refine ⟨Nat.lt_succ_of_lt hilt, hex, ?_⟩
        intro j hij hjn g hgj
        rcases Nat.lt_succ_iff_lt_or_eq.mp hjn with hjn | hjn
        · exact habove j hij hjn g hgj
        · subst hjn; rw [hgj] at hg; exact absurd hg (by simp)
      | some g =>
        rw [hg] at hi
        by_cases hgh : g.hid == hid
        · simp [hgh] at hi
          subst hi
          refine ⟨Nat.lt_succ_self _, ⟨g, hg, by simpa using hgh⟩, ?_⟩
          intro j hij hjn
          omega
        · simp [hgh] at hi
          obtain ⟨hilt, hex, habove⟩ := ih.1 i hi
          refine ⟨Nat.lt_succ_of_lt hilt, hex, ?_⟩
          intro j hij hjn g' hgj
          rcases Nat.lt_succ_iff_lt_or_eq.mp hjn with hjn | hjn
          · exact habove j hij hjn g' hgj
          · subst hjn
            rw [hgj] at hg
            have : g' = g := Option.some.inj hg
            subst this
            simpa using hgh
    · intro hi j hj g hgj
      rw [findTop] at hi
      cases hg : stk[n']? with
      | none =>
        rw [hg] at hi
        rcases Nat.lt_succ_iff_lt_or_eq.mp hj with hj | hj
        · exact ih.2 hi j hj g hgj
        · subst hj; rw [hgj] at hg; exact absurd hg (by simp)
      | some g' =>
        rw [hg] at hi
        by_cases hgh : g'.hid == hid
        · simp [hgh] at hi
        · simp [hgh] at hi
          rcases Nat.lt_succ_iff_lt_or_eq.mp hj with hj | hj
          · exact ih.2 hi j hj g hgj
          · subst hj
            rw [hgj] at hg
            have : g = g' := Option.some.inj hg
            subst this
            simpa using hgh

/-- C10: `__exit__` invokes `on_exit` exactly when the entry is found on
the stack by identity — searching from the top, removing the topmost
occurrence — and only after that removal (the callback observes the
already-popped stack); when the stack is empty or the entry is absent, a
`RuntimeWarning` is emitted, `on_exit` is never invoked, the stack is
unchanged and `__exit__` returns normally. -/
theorem C10_exit_semantics (stk : List Handler) (h : Handler) :
    (∀ i, findTop stk h.hid stk.length = some i →
      exitHandler stk h =
        ⟨stk.eraseIdx i,
         if h.onExit then some (stk.eraseIdx i) else none, false⟩ ∧
      (∃ g, stk[i]? = some g ∧ g.hid = h.hid) ∧
      (∀ j, i < j → j < stk.length → ∀ g, stk[j]? = some g →
        g.hid ≠ h.hid)) ∧
    (findTop stk h.hid stk.length = none →
      exitHandler stk h = ⟨stk, none, true⟩ ∧
      ∀ j, j < stk.length → ∀ g, stk[j]? = some g → g.hid ≠ h.hid) := by
  constructor
  · intro i hi
    obtain ⟨hilt, hex, habove⟩ := (findTop_spec stk h.hid stk.length).1 i hi
    have hne : stk.isEmpty = false := by
      cases stk with
      | nil => simp at hilt
      | cons a t => rfl
    refine ⟨?_, hex, habove⟩
    rw [exitHandler, hne]
    simp only [Bool.false_eq_true, if_false, hi]
  · intro hi
    refine ⟨?_, (findTop_spec stk h.hid stk.length).2 hi⟩
    rw [exitHandler]
    by_cases hne : stk.isEmpty
    · simp [hne]
    · simp only [hne, Bool.false_eq_true, if_false, hi]

/-- Witness for C10: releasing the present top handler `wB` on
`[wA, wB]` pops it and runs `on_exit` against the popped stack `[wA]`;
releasing the absent `wB` on `[wA]`, or on the empty stack, only
warns. -/
theorem C10_witness :
    exitHandler [wA, wB] wB = ⟨[wA], some [wA], false⟩ ∧
    exitHandler [wA] wB = ⟨[wA], none, true⟩ ∧
    exitHandler [] wB = ⟨[], none, true⟩ := by
  refine ⟨?_, ?_, ?_⟩
  · have := ((C10_exit_semantics [wA, wB] wB).1 1 (by decide)).1
    simpa using this
  · exact ((C10_exit_semantics [wA] wB).2 (by decide)).1
  · exact ((C10_exit_semantics [] wB).2 (by decide)).1

end Effects

namespace CtxIso

/-- A single context operation only appends fresh list objects and
mutates the object it just created: every pre-existing list object is
untouched. -/
theorem doOp_preserves (m : Mem) (v : Option Nat) (op : COp) :
    m.cells.length ≤ (doOp m v op).1.cells.length ∧
    ∀ i, i < m.cells.length → (doOp m v op).1.cells[i]? = m.cells[i]? := by
  cases op with
  | access =>
    refine ⟨?_, ?_⟩
    · simp [doOp, get_stack]
    · intro i hi
      simp only [doOp, get_stack]
      exact List.getElem?_append_left hi
  | push h =>
    refine ⟨?_, ?_⟩
    · simp [doOp, enterOp, get_stack, setCell]
    · intro i hi
      simp only [doOp, enterOp, get_stack, setCell]
      rw [List.getElem?_set_ne (by omega)]
      exact List.getElem?_append_left hi
  | release h =>
    constructor
    · rw [doOp, exitOp]
      cases hft : findTopNat ((((get_stack m v).1.cells[(get_stack m v).2.2]?).getD []))
          h ((((get_stack m v).1.cells[(get_stack m v).2.2]?).getD [])).length with
      | some i => simp [hft, setCell, get_stack]
      | none => simp [hft, get_stack]
    · intro i hi
      rw [doOp, exitOp]
      cases hft : findTopNat ((((get_stack m v).1.cells[(get_stack m v).2.2]?).getD []))
          h ((((get_stack m v).1.cells[(get_stack m v).2.2]?).getD [])).length with
      | some j =>
        simp only [hft, setCell, get_stack]
        rw [List.getElem?_set_ne (by omega)]
        exact List.getElem?_append_left hi
      | none =>
        simp only [hft, get_stack]
        exact List.getElem?_append_left hi

/-- Running any sequence of context operations never shrinks the heap
and never changes a pre-existing list object. -/
theorem runOps_preserves (ops : List COp) :
    ∀ (m : Mem) (v : Option Nat),
      m.cells.length ≤ (runOps m v ops).1.cells.length ∧
      ∀ i, i < m.cells.length →
        (runOps m v ops).1.cells[i]? = m.cells[i]? := by
  induction ops with
  | nil => intro m v; exact ⟨Nat.le_refl _, fun i _ => rfl⟩
  | cons op ops ih =>
    intro m v
    obtain ⟨hlen1, hpres1⟩ := doOp_preserves m v op
    obtain ⟨hlen2, hpres2⟩ := ih (doOp m v op).1 (doOp m v op).2
    refine ⟨Nat.le_trans hlen1 hlen2, ?_⟩
    intro i hi
    rw [runOps]
    rw [hpres2 i (Nat.lt_of_lt_of_le hi hlen1), hpres1 i hi]

/-- C6: a child context that inherited the parent's `_STACK_VAR`
reference (`some p`) seeds, on its first stack access, a fresh private
list object whose content is a copy of the inherited one; and no
sequence of pushes, releases or accesses performed in the child ever
changes any pre-existing list object — in particular the parent's (and
any sibling's) stack is observationally untouched. -/
theorem C6_child_isolation (m : Mem) (p : Nat) (ops : List COp)
    (hp : p < m.cells.length) :
    ((get_stack m (some p)).2.2 ≠ p ∧
     (get_stack m (some p)).1.cells[(get_stack m (some p)).2.2]?
       = m.cells[p]?) ∧
    (∀ i, i < m.cells.length →
      (runOps m (some p) ops).1.cells[i]? = m.cells[i]?) := by
  refine ⟨⟨?_, ?_⟩, fun i hi => (runOps_preserves ops m (some p)).2 i hi⟩
  · simp only [get_stack]
    omega
  · obtain ⟨c, hc⟩ : ∃ c, m.cells[p]? = some c :=
      ⟨m.cells[p], List.getElem?_eq_getElem hp⟩
    simp only [get_stack, hc]
    rw [List.getElem?_append_right (Nat.le_refl _)]
    simp

/-- Witness for C6 at the concrete parent heap `mem0` (one stack
`[5, 6]` at id `0`): the child's first access allocates fresh id `1`
with a copy of `[5, 6]`, and after the child pushes `7`, accesses, and
releases `7`, the parent's object still holds `[5, 6]`. -/
theorem C6_witness :
    ((get_stack mem0 (some 0)).2.2 ≠ 0 ∧
     (get_stack mem0 (some 0)).1.cells[(get_stack mem0 (some 0)).2.2]?
       = mem0.cells[0]?) ∧
    (runOps mem0 (some 0) [.push 7, .access, .release 7]).1.cells[0]?
      = some [5, 6] := by
  have h := C6_child_isolation mem0 0 [.push 7, .access, .release 7] (by decide)
  exact ⟨h.1, by rw [h.2 0 (by decide)]; rfl⟩

end CtxIso

namespace UtilCM

/-- When every release succeeds, the loop calls all of them in order. -/
theorem exitSeq_all_ok :
    ∀ l : List CM, (∀ cm ∈ l, cm.exitErr = none) →
      exitSeq l = (none, l.map CM.cid) := by
  intro l
  induction l with
  | nil => intro _; rfl
  | cons cm rest ih =>
    intro hall
    have hcm : cm.exitErr = none := hall cm (by simp)
    rw [exitSeq, hcm, ih (fun x hx => hall x (by simp [hx]))]
    rfl

/-- The first raising release propagates its exception and aborts the
loop: everything before it runs, nothing after it is attempted. -/
theorem exitSeq_first_err :
    ∀ (pre : List CM) (cm : CM) (post : List CM) (c : Nat),
      (∀ x ∈ pre, x.exitErr = none) → cm.exitErr = some c →
      exitSeq (pre ++ cm :: post) = (some c, pre.map CM.cid ++ [cm.cid]) := by
  intro pre
  induction pre with
  | nil =>
    intro cm post c _ hcm
    rw [List.nil_append, exitSeq, hcm]
    rfl
  | cons x rest ih =>
    intro cm post c hall hcm
    have hx : x.exitErr = none := hall x (by simp)
    rw [List.cons_append, exitSeq, hx,
      ih cm post c (fun y hy => hall y (by simp [hy])) hcm]
    rfl

/-- Counterexample to C8 as stated: the components are entered in the
order `cmOK, cmBad`; on exit, `cmBad`'s release runs first and raises
`5`, which propagates — but `cmOK`'s release is NOT attempted (its id
`0` is absent from the ghost call list), contrary to the claim that the
remaining earlier-entered releases are still attempted. -/
theorem C8_counterexample :
    (stackExit [cmOK, cmBad]).1 = some 5 ∧
    cmOK.cid ∉ (stackExit [cmOK, cmBad]).2 := by
  decide

/-- C8 (amended): `stack.__exit__` calls the component `__exit__`
methods in reverse order of entry; when all succeed, every component's
release runs; when a release raises, that first failure propagates to
the caller and the releases of the remaining (earlier-entered)
components are NOT attempted — the loop aborts at the first raising
component. -/
theorem C8_release_abort (cms : List CM) :
    ((∀ cm ∈ cms, cm.exitErr = none) →
      stackExit cms = (none, cms.reverse.map CM.cid)) ∧
    (∀ (pre : List CM) (cm : CM) (post : List CM) (c : Nat),
      cms.reverse = pre ++ cm :: post →
      (∀ x ∈ pre, x.exitErr = none) → cm.exitErr = some c →
      stackExit cms = (some c, pre.map CM.cid ++ [cm.cid])) := by
  constructor
  · intro hall
    rw [stackExit, exitSeq_all_ok cms.reverse
      (fun x hx => hall x (List.mem_reverse.mp hx))]
  · intro pre cm post c hrev hall hcm
    rw [stackExit, hrev, exitSeq_first_err pre cm post c hall hcm]

/-- Witness for C8 (amended): with both releases succeeding, exits run
in reverse entry order `[2, 0]`; with the later-entered `cmBad` raising,
the exception `5` propagates after calling only `cmBad`'s release. -/
theorem C8_witness :
    stackExit [cmOK, cmOK2] = (none, [2, 0]) ∧
    stackExit [cmOK, cmBad] = (some 5, [1]) := by
  constructor
  · exact (C8_release_abort [cmOK, cmOK2]).1 (by decide)
  · exact (C8_release_abort [cmOK, cmBad]).2 [] cmBad [cmOK] 5
      (by decide) (by decide) (by decide)

end UtilCM

namespace PyTy

/-- C5 (code bug): the repository's own matcher
`annotation_matches_effect` (src/effects/_typing.py) implements exactly
the claimed specialization routing — `Box(5)` matches `Box[int]` only,
`Box("x")` matches `Box[str]` only, and `Box(5.0)` matches neither — but
the dispatcher in src/effects/effects.py never consults it: `handler`
erases a parameterized annotation to its `__origin__` class (both
`Box[int]` and `Box[str]` register as plain `Box`), and `send` matches
with `isinstance` alone, so `send(Box(5.0))` is answered by the most
recently installed `Box` handler (here the `Box[str]` one, returning
`2`) instead of raising `NoHandlerError`, and `send(Box(5))` is answered
by that same topmost handler rather than the `Box[int]` one. -/
theorem C5_specialization_routing_divergence :
    annotation_matches_effect tbl5 0 box5 annBoxInt = .ok true ∧
    annotation_matches_effect tbl5 0 boxX annBoxStr = .ok true ∧
    annotation_matches_effect tbl5 0 box5 annBoxStr = .ok false ∧
    annotation_matches_effect tbl5 0 boxX annBoxInt = .ok false ∧
    annotation_matches_effect tbl5 0 box5f annBoxInt = .ok false ∧
    annotation_matches_effect tbl5 0 box5f annBoxStr = .ok false ∧
    handler_cons tbl5 0 [⟨"e", some annBoxInt⟩] none = .ok (.cls 1) ∧
    handler_cons tbl5 0 [⟨"e", some annBoxStr⟩] none = .ok (.cls 1) ∧
    Effects.send 5 [hBoxInt, hBoxStr] effBox5f true none
      = ⟨.ok 2, none, [1]⟩ := by
  exact ⟨rfl, rfl, rfl, rfl, rfl, rfl, rfl, rfl, by decide⟩

/-- C7 (code bug): in src/effects/effects.py, `handler` validates the
acceptance spec only on the inference path — a first-parameter
annotation naming a non-`Effect` class (here `int = 2`) is rejected at
registration — while an explicitly supplied `effect_type` is stored with
no validation whatsoever, whether it is a non-`Effect` class or not even
a class, so that misconfiguration never fails at construction time.  The
validator `effect_class_from_annotation` shipped in
src/effects/_typing.py does reject the same spec, but `handler` never
calls it. -/
theorem C7_registration_validation_divergence :
    handler_cons tbl5 0 [⟨"x", some (.cls 2)⟩] none
      = .error "Inferred type is not a subclass of Effect." ∧
    handler_cons tbl5 0 [] (some (.cls 2)) = .ok (.cls 2) ∧
    handler_cons tbl5 0 [] (some (.nonType 0)) = .ok (.nonType 0) ∧
    effect_class_from_annotation tbl5 0 (.cls 2)
      = .error "Effect handler must target Effect subclasses." := by
  exact ⟨rfl, rfl, rfl, rfl⟩

end PyTy
